import Mathlib

/-!
Verification of the vimebu metric-string builder.

Go strings are byte sequences; we embed them as `List Nat` (each entry a
byte value < 256).  The repository contains two generations of the
incremental builder (the panic-based one in builder.go and the
log-and-skip one in vimebu.go) plus the one-shot `BuilderFunc`
(vimebu_func.go); all three are embedded below.
-/

/-! ## Byte constants (builder.go / constants.go) -/

def leftBracketByte : Nat := 123

def rightBracketByte : Nat := 125

def commaByte : Nat := 44

def equalByte : Nat := 61

def doubleQuotesByte : Nat := 34

def backslashByte : Nat := 92

/-- constants.go: `MetricNameMaxLen = 256`. -/
def MetricNameMaxLen : Nat := 256

/-- constants.go: `LabelNameMaxLen = 128`. -/
def LabelNameMaxLen : Nat := 128

/-- constants.go: `LabelValueLen = 1024`. -/
def LabelValueLen : Nat := 1024

/-- The byte string of the conventional default label name of
error-valued labels: builder.go `errorLabelName string = "error"`. -/
def errorLabelName : List Nat := [101, 114, 114, 111, 114]

/-- The bytes of the text rendered by Go for the boolean true. -/
def trueBytes : List Nat := [116, 114, 117, 101]

/-- The bytes of the text rendered by Go for the boolean false. -/
def falseBytes : List Nat := [102, 97, 108, 115, 101]

/-! ## Model of the Go standard library helpers used by the source

`strconv.AppendQuote` escapes a string Go-style: a double quote or a
backslash becomes backslash-prefixed, printable characters are copied
verbatim, and the remaining control bytes become the usual two-letter
escapes or a hexadecimal escape.  The model below is byte-level and is
exact on ASCII bytes (0..127), which is the domain every theorem about
it uses.
-/

/-- Lower-case hexadecimal digit byte of a value < 16 (Go `lowerhex`). -/
def hexDigit (n : Nat) : Nat :=
  if n < 10 then 48 + n else 87 + (n - 10)

/-- How `strconv.AppendQuote` rewrites one ASCII byte of the quoted
string (the material between the surrounding double quotes). -/
def goQuoteByte (c : Nat) : List Nat :=
  if c = doubleQuotesByte ∨ c = backslashByte then [backslashByte, c]
  else if 32 ≤ c ∧ c ≤ 126 then [c]
  else if c = 7 then [backslashByte, 97]
  else if c = 8 then [backslashByte, 98]
  else if c = 12 then [backslashByte, 102]
  else if c = 10 then [backslashByte, 110]
  else if c = 13 then [backslashByte, 114]
  else if c = 9 then [backslashByte, 116]
  else if c = 11 then [backslashByte, 118]
  else [backslashByte, 120, hexDigit (c / 16), hexDigit (c % 16)]

/-- The escaped interior produced by `strconv.AppendQuote` for a byte
string (ASCII-exact). -/
def goQuoteBody : List Nat → List Nat
  | [] => []
  | c :: rest => goQuoteByte c ++ goQuoteBody rest

/-- The bytes `strconv.AppendQuote dst s` appends to `dst`:
a double quote, the escaped interior, and a closing double quote. -/
def goQuote (s : List Nat) : List Nat :=
  [doubleQuotesByte] ++ goQuoteBody s ++ [doubleQuotesByte]

/-- Decimal digits of a natural number, accumulator and fuel driven so
that the kernel can evaluate it (the fuel bounds the digit count; it is
always called with fuel = n, which suffices since n has at most n
digits). Models the digit loop of `strconv.AppendUint`. -/
def natDecimalAux : Nat → Nat → List Nat → List Nat
  | 0, _, acc => acc
  | _ + 1, n, acc =>
    if n = 0 then acc
    else natDecimalAux n (n / 10) ((48 + n % 10) :: acc)

/-- Base-10 rendering of a natural number as bytes
(`strconv.AppendUint(dst, n, 10)` appends exactly these bytes). -/
def natDecimal (n : Nat) : List Nat :=
  if n = 0 then [48] else natDecimalAux (n + 1) n []

/-- Base-10 rendering of an integer as bytes, minus sign preserved
(`strconv.AppendInt(dst, i, 10)` appends exactly these bytes). -/
def intDecimal (i : Int) : List Nat :=
  if i < 0 then 45 :: natDecimal i.natAbs else natDecimal i.natAbs

/-! ## utils.go

`appendFloat64Value` calls `strconv.AppendFloat(dst, f, 'f', -1, 64)`;
the decimal rendering of an IEEE-754 double is outside this embedding,
so everywhere a float value occurs the embedding carries the byte
string produced for it by `strconv.AppendFloat` as the given datum. -/

/-- utils.go `appendStringValue`: quotes (escaping if requested) and
appends s to dst. -/
def appendStringValue (dst : List Nat) (s : List Nat) (escapeQuote : Bool) : List Nat :=
  if escapeQuote then dst ++ goQuote s
  else dst ++ [doubleQuotesByte] ++ s ++ [doubleQuotesByte]

/-- utils.go `appendBoolValue` (via `strconv.AppendBool`). -/
def appendBoolValue (dst : List Nat) (b : Bool) : List Nat :=
  dst ++ [doubleQuotesByte] ++ (if b then trueBytes else falseBytes) ++ [doubleQuotesByte]

/-- utils.go `appendInt64Value` (via `strconv.AppendInt`). -/
def appendInt64Value (dst : List Nat) (i : Int) : List Nat :=
  dst ++ [doubleQuotesByte] ++ intDecimal i ++ [doubleQuotesByte]

/-- utils.go `appendUint64Value` (via `strconv.AppendUint`). -/
def appendUint64Value (dst : List Nat) (i : Nat) : List Nat :=
  dst ++ [doubleQuotesByte] ++ natDecimal i ++ [doubleQuotesByte]

/-- utils.go `appendFloat64Value`; `fBytes` is the
`strconv.AppendFloat(f, 102, -1, 64)` rendering of the float64 value,
carried as an abstract byte string. -/
def appendFloat64Value (dst : List Nat) (fBytes : List Nat) : List Nat :=
  dst ++ [doubleQuotesByte] ++ fBytes ++ [doubleQuotesByte]

/-! ## builder.go: the panic-based Builder

Panics are embedded as `Except` errors; the Go panic unwinds before any
mutation of the receiver, so an `Except.error` result leaves the
caller's builder exactly as it was.  The pool pointer and the noCopy
marker carry no information relevant to the rendered output and are
dropped from the state. -/

structure Builder where
  buf : List Nat
  hasMetricName : Bool
  hasLabel : Bool
  labelNameMaxLen : Nat
  labelValueMaxLen : Nat
deriving DecidableEq

/-- The Go zero value of `Builder`, which is ready to use. -/
def Builder.empty : Builder := ⟨[], false, false, 0, 0⟩

/-- builder.go `BuilderOption`: a modifier applied to the builder. -/
def BuilderOption := Builder → Builder

/-- builder.go `WithLabelNameMaxLen`. -/
def WithLabelNameMaxLen (maxLen : Nat) : BuilderOption :=
  fun b => { b with labelNameMaxLen := maxLen }

/-- builder.go `WithLabelValueMaxLen`. -/
def WithLabelValueMaxLen (maxLen : Nat) : BuilderOption :=
  fun b => { b with labelValueMaxLen := maxLen }

/-- The two panics of builder.go `Builder.Metric`. -/
inductive MetricPanic where
  | emptyMetricName
  | alreadySet
deriving DecidableEq

/-- The panic of the label methods of builder.go. -/
inductive LabelPanic where
  | noMetricName
deriving DecidableEq

/-- builder.go `Builder.Metric`: sets the metric name, panicking if the
name is empty or if a name was already set; otherwise applies the
options and appends the raw name bytes. -/
def Builder.Metric (b : Builder) (name : List Nat) (options : List BuilderOption) :
    Except MetricPanic Builder :=
  if name.length = 0 then .error .emptyMetricName
  else if b.hasMetricName then .error .alreadySet
  else
    let b := options.foldl (fun acc applyOption => applyOption acc) b
    .ok { b with buf := b.buf ++ name, hasMetricName := true }

/-- builder.go `Builder.isValidLabelName`: nonempty, and within
`labelNameMaxLen` when that is positive.  Only the length of the name
is inspected. -/
def Builder.isValidLabelName (b : Builder) (name : List Nat) : Bool :=
  if name.length = 0 then false
  else if 0 < b.labelNameMaxLen ∧ b.labelNameMaxLen < name.length then false
  else true

/-- builder.go `Builder.isValidLabelValue`: nonempty, and within
`labelValueMaxLen` when that is positive. -/
def Builder.isValidLabelValue (b : Builder) (name value : List Nat) : Bool :=
  if value.length = 0 then false
  else if 0 < b.labelValueMaxLen ∧ b.labelValueMaxLen < value.length then false
  else true

/-- builder.go `Builder.appendCommaOrLeftBracket`, combined with the
caller's write-back of the returned buffer: appends a comma once a
label exists, else appends the opening bracket and raises the
has-label flag. -/
def Builder.appendCommaOrLeftBracket (b : Builder) : Builder :=
  if b.hasLabel then { b with buf := b.buf ++ [commaByte] }
  else { b with hasLabel := true, buf := b.buf ++ [leftBracketByte] }

/-- builder.go `Builder.labelString`: shared body of `LabelString` and
`LabelTrustedString`; panics without a metric name, skips invalid
names/values, otherwise appends separator, name, equals sign and the
(escaped or verbatim) quoted value. -/
def Builder.labelString (b : Builder) (name value : List Nat) (escapeQuotes : Bool) :
    Except LabelPanic Builder :=
  if b.hasMetricName = false then .error .noMetricName
  else if b.isValidLabelName name = false then .ok b
  else if b.isValidLabelValue name value = false then .ok b
  else
    let b := b.appendCommaOrLeftBracket
    .ok { b with
      buf := b.buf ++ name ++ [equalByte] ++
        (if escapeQuotes then goQuote value
         else [doubleQuotesByte] ++ value ++ [doubleQuotesByte]) }

/-- builder.go `Builder.LabelString` (escaping path). -/
def Builder.LabelString (b : Builder) (name value : List Nat) : Except LabelPanic Builder :=
  b.labelString name value true

/-- builder.go `Builder.LabelTrustedString` (verbatim fast path). -/
def Builder.LabelTrustedString (b : Builder) (name value : List Nat) :
    Except LabelPanic Builder :=
  b.labelString name value false

/-- builder.go `Builder.LabelBool`. -/
def Builder.LabelBool (b : Builder) (name : List Nat) (value : Bool) :
    Except LabelPanic Builder :=
  if value then b.LabelString name trueBytes else b.LabelString name falseBytes

/-- builder.go `Builder.LabelUint64`: no value validation; appends the
base-10 digits inside double quotes. -/
def Builder.LabelUint64 (b : Builder) (name : List Nat) (value : Nat) :
    Except LabelPanic Builder :=
  if b.hasMetricName = false then .error .noMetricName
  else if b.isValidLabelName name = false then .ok b
  else
    let b := b.appendCommaOrLeftBracket
    .ok { b with
      buf := b.buf ++ name ++ [equalByte] ++ [doubleQuotesByte] ++
        natDecimal value ++ [doubleQuotesByte] }

/-- builder.go `Builder.LabelUint` (delegates to `LabelUint64`). -/
def Builder.LabelUint (b : Builder) (name : List Nat) (value : Nat) :
    Except LabelPanic Builder :=
  b.LabelUint64 name value

/-- builder.go `Builder.LabelUint8` (delegates to `LabelUint64`). -/
def Builder.LabelUint8 (b : Builder) (name : List Nat) (value : Nat) :
    Except LabelPanic Builder :=
  b.LabelUint64 name value

/-- builder.go `Builder.LabelUint16` (delegates to `LabelUint64`). -/
def Builder.LabelUint16 (b : Builder) (name : List Nat) (value : Nat) :
    Except LabelPanic Builder :=
  b.LabelUint64 name value

/-- builder.go `Builder.LabelUint32` (delegates to `LabelUint64`). -/
def Builder.LabelUint32 (b : Builder) (name : List Nat) (value : Nat) :
    Except LabelPanic Builder :=
  b.LabelUint64 name value

/-- builder.go `Builder.LabelInt64`. -/
def Builder.LabelInt64 (b : Builder) (name : List Nat) (value : Int) :
    Except LabelPanic Builder :=
  if b.hasMetricName = false then .error .noMetricName
  else if b.isValidLabelName name = false then .ok b
  else
    let b := b.appendCommaOrLeftBracket
    .ok { b with
      buf := b.buf ++ name ++ [equalByte] ++ [doubleQuotesByte] ++
        intDecimal value ++ [doubleQuotesByte] }

/-- builder.go `Builder.LabelInt` (delegates to `LabelInt64`). -/
def Builder.LabelInt (b : Builder) (name : List Nat) (value : Int) :
    Except LabelPanic Builder :=
  b.LabelInt64 name value

/-- builder.go `Builder.LabelInt8` (delegates to `LabelInt64`). -/
def Builder.LabelInt8 (b : Builder) (name : List Nat) (value : Int) :
    Except LabelPanic Builder :=
  b.LabelInt64 name value

/-- builder.go `Builder.LabelInt16` (delegates to `LabelInt64`). -/
def Builder.LabelInt16 (b : Builder) (name : List Nat) (value : Int) :
    Except LabelPanic Builder :=
  b.LabelInt64 name value

/-- builder.go `Builder.LabelInt32` (delegates to `LabelInt64`). -/
def Builder.LabelInt32 (b : Builder) (name : List Nat) (value : Int) :
    Except LabelPanic Builder :=
  b.LabelInt64 name value

/-- builder.go `Builder.LabelFloat64`; `fBytes` stands for the
`strconv.AppendFloat` rendering of the float64 value (see the note on
`appendFloat64Value`). -/
def Builder.LabelFloat64 (b : Builder) (name : List Nat) (fBytes : List Nat) :
    Except LabelPanic Builder :=
  if b.hasMetricName = false then .error .noMetricName
  else if b.isValidLabelName name = false then .ok b
  else
    let b := b.appendCommaOrLeftBracket
    .ok { b with
      buf := b.buf ++ name ++ [equalByte] ++ [doubleQuotesByte] ++
        fBytes ++ [doubleQuotesByte] }

/-- builder.go `Builder.LabelFloat32` (delegates to `LabelFloat64`). -/
def Builder.LabelFloat32 (b : Builder) (name : List Nat) (fBytes : List Nat) :
    Except LabelPanic Builder :=
  b.LabelFloat64 name fBytes

/-- builder.go `Builder.LabelError`; a Go error is either nil (`none`)
or carries the string returned by its Error method. -/
def Builder.LabelError (b : Builder) (err : Option (List Nat)) : Except LabelPanic Builder :=
  match err with
  | none => .ok b
  | some msg => b.LabelString errorLabelName msg

/-- builder.go `Builder.LabelNamedError`. -/
def Builder.LabelNamedError (b : Builder) (name : List Nat) (err : Option (List Nat)) :
    Except LabelPanic Builder :=
  match err with
  | none => .ok b
  | some msg => b.LabelString name msg

/-- builder.go `Builder.LabelTrustedError`. -/
def Builder.LabelTrustedError (b : Builder) (err : Option (List Nat)) :
    Except LabelPanic Builder :=
  match err with
  | none => .ok b
  | some msg => b.LabelTrustedString errorLabelName msg

/-- builder.go `Builder.LabelNamedTrustedError`. -/
def Builder.LabelNamedTrustedError (b : Builder) (name : List Nat) (err : Option (List Nat)) :
    Except LabelPanic Builder :=
  match err with
  | none => .ok b
  | some msg => b.LabelTrustedString name msg

/-- builder.go `Builder.LabelStringer`; a stringer is either nil
(`none`) or carries its String() result. -/
def Builder.LabelStringer (b : Builder) (name : List Nat) (value : Option (List Nat)) :
    Except LabelPanic Builder :=
  match value with
  | none => .ok b
  | some s => b.LabelString name s

/-- builder.go `Builder.LabelTrustedStringer`. -/
def Builder.LabelTrustedStringer (b : Builder) (name : List Nat) (value : Option (List Nat)) :
    Except LabelPanic Builder :=
  match value with
  | none => .ok b
  | some s => b.LabelTrustedString name s

/-- builder.go `Builder.String`: empty result without a metric name,
otherwise the buffer, closed with the right bracket when at least one
label was accepted.  (The release of the builder to its pool is a
memory-management side effect with no bearing on the returned bytes.) -/
def Builder.String (b : Builder) : List Nat :=
  if b.hasMetricName = false then []
  else if b.hasLabel then b.buf ++ [rightBracketByte]
  else b.buf

/-! ## vimebu.go: the log-and-skip Builder variant

This generation of the builder never panics on misuse: every invalid
input is logged and skipped, leaving the builder untouched.  The only
panic is the internal default branch of `label` (all payload pointers
nil), embedded as an `Except.error`. -/

structure VBuilder where
  buf : List Nat
  flName : Bool
  flLabel : Bool
deriving DecidableEq

/-- The Go zero value of the vimebu.go Builder. -/
def VBuilder.empty : VBuilder := ⟨[], false, false⟩

/-- vimebu.go `Builder.Metric`: logs and skips (returning the builder
unchanged) when a name is already set, when the name is empty or longer
than `MetricNameMaxLen`, or when it contains a double quote; otherwise
commits the name. -/
def VBuilder.Metric (b : VBuilder) (name : List Nat) : VBuilder :=
  if b.flName then b
  else if name.length = 0 then b
  else if MetricNameMaxLen < name.length then b
  else if name.contains doubleQuotesByte then b
  else { b with buf := b.buf ++ name, flName := true }

/-- vimebu.go `Builder.label`: the shared tagged-union append path.
Exactly one of the five payload options is meant to be set; the default
branch (all nil) is the internal panic.  A missing name, an oversize
name, or an invalid string value is logged and skipped. -/
def VBuilder.label (b : VBuilder) (name : List Nat) (escapeQuote : Bool)
    (stringValue : Option (List Nat)) (boolValue : Option Bool)
    (uint64Value : Option Nat) (int64Value : Option Int)
    (float64Value : Option (List Nat)) : Except Unit VBuilder :=
  if b.flName = false then .ok b
  else if name.length = 0 then .ok b
  else if LabelNameMaxLen < name.length then .ok b
  else if stringValue.elim false (fun s => s.length = 0) then .ok b
  else if stringValue.elim false (fun s => LabelValueLen < s.length) then .ok b
  else
    let buf := b.buf ++ (if b.flLabel then [commaByte] else [leftBracketByte])
    let buf := buf ++ name ++ [equalByte]
    match stringValue, boolValue, uint64Value, int64Value, float64Value with
    | some s, _, _, _, _ => .ok ⟨appendStringValue buf s escapeQuote, b.flName, true⟩
    | none, some v, _, _, _ => .ok ⟨appendBoolValue buf v, b.flName, true⟩
    | none, none, some v, _, _ => .ok ⟨appendUint64Value buf v, b.flName, true⟩
    | none, none, none, some v, _ => .ok ⟨appendInt64Value buf v, b.flName, true⟩
    | none, none, none, none, some v => .ok ⟨appendFloat64Value buf v, b.flName, true⟩
    | none, none, none, none, none => .error ()

/-- vimebu.go `Builder.String`. -/
def VBuilder.String (b : VBuilder) : List Nat :=
  if b.flName = false then []
  else if b.flLabel then b.buf ++ [rightBracketByte]
  else b.buf

/-! ## vimebu_func.go: the one-shot BuilderFunc -/

/-- The result triple of a vimebu_func.go `LabelCallback`. -/
structure LabelCb where
  name : List Nat
  value : List Nat
  escapeQuote : Bool
deriving DecidableEq

/-- The three panics of `BuilderFunc` on an invalid metric name. -/
inductive FuncPanic where
  | emptyName
  | nameTooLong
  | nameContainsQuote
deriving DecidableEq

/-- The label loop of `BuilderFunc` (vimebu_func.go lines 88-111):
skips a callback with an empty name or value, writes a comma before
every accepted label but the first, and escapes the value only when
escaping was requested and the value actually contains a double
quote. -/
def BuilderFuncLoop : List LabelCb → Bool → List Nat
  | [], _ => []
  | cb :: rest, flLabel =>
    if cb.name = [] ∨ cb.value = [] then BuilderFuncLoop rest flLabel
    else
      (if flLabel then [commaByte] else []) ++ cb.name ++ [equalByte] ++
        (if cb.escapeQuote ∧ cb.value.contains doubleQuotesByte then goQuote cb.value
         else [doubleQuotesByte] ++ cb.value ++ [doubleQuotesByte]) ++
      BuilderFuncLoop rest true

/-- vimebu_func.go `BuilderFunc`: panics on an empty, oversize or
quote-containing metric name; renders `name` + braces around the
accepted labels, and notably `name{}` when the label slice is empty. -/
def BuilderFunc (name : List Nat) (labels : List LabelCb) : Except FuncPanic (List Nat) :=
  if name.length = 0 then .error .emptyName
  else if MetricNameMaxLen < name.length then .error .nameTooLong
  else if name.contains doubleQuotesByte then .error .nameContainsQuote
  else if labels.length = 0 then .ok (name ++ [leftBracketByte, rightBracketByte])
  else .ok (name ++ [leftBracketByte] ++ BuilderFuncLoop labels false ++ [rightBracketByte])

/-! ## Spec-side rendering vocabulary

These definitions restate, in one closed form, what the incremental
appends are claimed to produce; the theorems below compare the
source-embedded operations against them. -/

/-- A chain of label appends on the panic-based builder, one
`labelString` call per (name, value) pair. -/
def runLabels (esc : Bool) : Builder → List (List Nat × List Nat) → Except LabelPanic Builder
  | b, [] => .ok b
  | b, nv :: rest =>
    match b.labelString nv.1 nv.2 esc with
    | .error e => .error e
    | .ok b₂ => runLabels esc b₂ rest

/-- The bytes one accepted string label contributes after its
separator: name, equals sign, and the quoted (escaped or verbatim)
value. -/
def renderLabel (esc : Bool) (nv : List Nat × List Nat) : List Nat :=
  nv.1 ++ [equalByte] ++
    (if esc then goQuote nv.2 else [doubleQuotesByte] ++ nv.2 ++ [doubleQuotesByte])

/-- The bytes one accepted `BuilderFunc` callback contributes after its
separator (escaping only when requested and a double quote occurs). -/
def renderCb (cb : LabelCb) : List Nat :=
  cb.name ++ [equalByte] ++
    (if cb.escapeQuote ∧ cb.value.contains doubleQuotesByte then goQuote cb.value
     else [doubleQuotesByte] ++ cb.value ++ [doubleQuotesByte])

/-- Comma-joined label parts. -/
def joinComma : List (List Nat) → List Nat
  | [] => []
  | [p] => p
  | p :: q :: ps => p ++ [commaByte] ++ joinComma (q :: ps)

/-- The brace-wrapped label block: nothing when no label was accepted,
else the comma-joined parts between braces. -/
def renderLabels (parts : List (List Nat)) : List Nat :=
  match parts with
  | [] => []
  | _ => [leftBracketByte] ++ joinComma parts ++ [rightBracketByte]

/-- What a run of accepted labels appends to a buffer whose has-label
flag is `hasLabel`: each part preceded by a comma, except the first,
which is preceded by a comma or the opening bracket according to the
flag. -/
def appendLabels (hasLabel : Bool) : List (List Nat) → List Nat
  | [] => []
  | p :: ps => (if hasLabel then [commaByte] else [leftBracketByte]) ++ p ++ appendLabels true ps

/-- Validity of a (label name, label value) pair under the length
limits a and c (0 meaning unlimited), as `isValidLabelName` and
`isValidLabelValue` decide it. -/
def validPair (a c : Nat) (nv : List Nat × List Nat) : Bool :=
  (decide (nv.1.length ≠ 0) && !(decide (0 < a) && decide (a < nv.1.length))) &&
  (decide (nv.2.length ≠ 0) && !(decide (0 < c) && decide (c < nv.2.length)))

/-- Modelled from the spec: the standard unescape convention of the
textual metric format, the inverse of the escaping of §4.2/§8 of the
spec — a backslash makes the following byte stand for itself (this
covers the backslash-prefixed double quote and backslash the escaping
path emits); every other byte stands for itself.  The convention is
external to the repository (it belongs to the consumer of the wire
format), so it is modelled from the spec's words. -/
def vmUnescape : List Nat → List Nat
  | [] => []
  | [c] => [c]
  | c :: d :: rest =>
    if c = backslashByte then d :: vmUnescape rest
    else c :: vmUnescape (d :: rest)

/-! ## Helper lemmas -/

/-- The pairs of a label sequence that the builder's validators accept. -/
def acceptedOf (b : Builder) (ls : List (List Nat × List Nat)) : List (List Nat × List Nat) :=
  ls.filter (fun nv => b.isValidLabelName nv.1 && b.isValidLabelValue nv.1 nv.2)

theorem isValidLabelName_only_maxLen (b b' : Builder)
    (h : b.labelNameMaxLen = b'.labelNameMaxLen) (name : List Nat) :
    b.isValidLabelName name = b'.isValidLabelName name := by
  unfold Builder.isValidLabelName
  rw [h]

theorem isValidLabelValue_only_maxLen (b b' : Builder)
    (h : b.labelValueMaxLen = b'.labelValueMaxLen) (name value : List Nat) :
    b.isValidLabelValue name value = b'.isValidLabelValue name value := by
  unfold Builder.isValidLabelValue
  rw [h]

theorem acceptedOf_only_maxLen (b b' : Builder)
    (h1 : b.labelNameMaxLen = b'.labelNameMaxLen)
    (h2 : b.labelValueMaxLen = b'.labelValueMaxLen)
    (ls : List (List Nat × List Nat)) : acceptedOf b ls = acceptedOf b' ls := by
  unfold acceptedOf
  refine List.filter_congr ?_
  intro nv _
  rw [isValidLabelName_only_maxLen b b' h1, isValidLabelValue_only_maxLen b b' h2]

/-- One run of accepted labels on a builder holding a metric name:
the buffer grows by exactly the separator-joined accepted parts in
input order, the has-label flag records whether any label was accepted,
and the configuration fields are untouched. -/
theorem runLabels_ok (esc : Bool) (ls : List (List Nat × List Nat)) :
    ∀ b : Builder, b.hasMetricName = true →
    runLabels esc b ls =
      .ok ⟨b.buf ++ appendLabels b.hasLabel ((acceptedOf b ls).map (renderLabel esc)),
           true, b.hasLabel || !(acceptedOf b ls).isEmpty,
           b.labelNameMaxLen, b.labelValueMaxLen⟩ := by
  induction ls with
  | nil =>
    intro b hb
    obtain ⟨buf, hn, hl, a, c⟩ := b
    simp only at hb
    subst hb
    simp [runLabels, acceptedOf, appendLabels]
  | cons nv rest ih =>
    intro b hb
    obtain ⟨buf, hn, hl, a, c⟩ := b
    simp only at hb
    subst hb
    by_cases h1 : Builder.isValidLabelName ⟨buf, true, hl, a, c⟩ nv.1
    · by_cases h2 : Builder.isValidLabelValue ⟨buf, true, hl, a, c⟩ nv.1 nv.2
      · -- the label is accepted
        cases hl with
        | false =>
          have step : runLabels esc ⟨buf, true, false, a, c⟩ (nv :: rest) =
              runLabels esc
                ⟨buf ++ [leftBracketByte] ++ nv.1 ++ [equalByte] ++
                   (if esc then goQuote nv.2
                    else [doubleQuotesByte] ++ nv.2 ++ [doubleQuotesByte]),
                 true, true, a, c⟩ rest := by
            simp [runLabels, Builder.labelString, h1, h2, Builder.appendCommaOrLeftBracket]
          rw [step, ih _ rfl]
          simp only [acceptedOf, List.filter_cons, h1, h2, Bool.and_self, if_true]
          simp [appendLabels, renderLabel, List.append_assoc]
          congr 2
        | true =>
          have step : runLabels esc ⟨buf, true, true, a, c⟩ (nv :: rest) =
              runLabels esc
                ⟨buf ++ [commaByte] ++ nv.1 ++ [equalByte] ++
                   (if esc then goQuote nv.2
                    else [doubleQuotesByte] ++ nv.2 ++ [doubleQuotesByte]),
                 true, true, a, c⟩ rest := by
            simp [runLabels, Builder.labelString, h1, h2, Builder.appendCommaOrLeftBracket]
          rw [step, ih _ rfl]
          simp only [acceptedOf, List.filter_cons, h1, h2, Bool.and_self, if_true]
          simp [appendLabels, renderLabel, List.append_assoc]
          congr 2
      · -- invalid value: the call is a no-op
        have step : runLabels esc ⟨buf, true, hl, a, c⟩ (nv :: rest) =
            runLabels esc ⟨buf, true, hl, a, c⟩ rest := by
          simp [runLabels, Builder.labelString, h1, h2]
        rw [step, ih _ rfl]
        simp only [acceptedOf, List.filter_cons]
        simp [h2]
    · -- invalid name: the call is a no-op
      have step : runLabels esc ⟨buf, true, hl, a, c⟩ (nv :: rest) =
          runLabels esc ⟨buf, true, hl, a, c⟩ rest := by
        simp [runLabels, Builder.labelString, h1]
      rw [step, ih _ rfl]
      simp only [acceptedOf, List.filter_cons]
      simp [h1]

theorem appendLabels_true_join (ps : List (List Nat)) (p : List Nat) :
    appendLabels true (p :: ps) = [commaByte] ++ joinComma (p :: ps) := by
  induction ps generalizing p with
  | nil => simp [appendLabels, joinComma]
  | cons q rs ih =>
    show [commaByte] ++ p ++ appendLabels true (q :: rs) = _
    rw [ih q]
    simp [joinComma, List.append_assoc]

theorem appendLabels_false_join (ps : List (List Nat)) (h : ps ≠ []) :
    appendLabels false ps = [leftBracketByte] ++ joinComma ps := by
  cases ps with
  | nil => exact absurd rfl h
  | cons p qs =>
    cases qs with
    | nil => simp [appendLabels, joinComma]
    | cons q rs =>
      show [leftBracketByte] ++ p ++ appendLabels true (q :: rs) = _
      rw [appendLabels_true_join rs q]
      simp [joinComma, List.append_assoc]

theorem isValidLabelName_zero (b : Builder) (h : b.labelNameMaxLen = 0) (n : List Nat) :
    b.isValidLabelName n = !n.isEmpty := by
  unfold Builder.isValidLabelName
  rw [h]
  cases n <;> simp

theorem isValidLabelValue_zero (b : Builder) (h : b.labelValueMaxLen = 0) (n v : List Nat) :
    b.isValidLabelValue n v = !v.isEmpty := by
  unfold Builder.isValidLabelValue
  rw [h]
  cases v <;> simp

/-- Building on a fresh default builder (no length limits): commit the
name, run the label calls, render.  The result is the name followed by
the brace-wrapped comma-joined accepted pairs — the pairs with both a
nonempty name and a nonempty value — in input order, and the bare name
when none was accepted. -/
theorem build_render (name : List Nat) (esc : Bool) (ls : List (List Nat × List Nat))
    (b₀ b₁ : Builder)
    (h0 : Builder.Metric Builder.empty name [] = .ok b₀)
    (h1 : runLabels esc b₀ ls = .ok b₁) :
    b₁.String =
      name ++ renderLabels
        ((ls.filter (fun nv => !nv.1.isEmpty && !nv.2.isEmpty)).map (renderLabel esc)) := by
  have hb₀ : b₀ = ⟨name, true, false, 0, 0⟩ := by
    unfold Builder.Metric at h0
    by_cases hn : name.length = 0
    · simp [hn] at h0
    · simp [hn, Builder.empty] at h0
      exact h0.symm
  subst hb₀
  rw [runLabels_ok esc ls _ rfl] at h1
  have hacc : acceptedOf ⟨name, true, false, 0, 0⟩ ls =
      ls.filter (fun nv => !nv.1.isEmpty && !nv.2.isEmpty) := by
    unfold acceptedOf
    refine List.filter_congr ?_
    intro nv _
    rw [isValidLabelName_zero _ rfl, isValidLabelValue_zero _ rfl]
  rw [hacc] at h1
  have hb₁ : b₁ = ⟨name ++ appendLabels false
      ((ls.filter (fun nv => !nv.1.isEmpty && !nv.2.isEmpty)).map (renderLabel esc)),
      true, !(ls.filter (fun nv => !nv.1.isEmpty && !nv.2.isEmpty)).isEmpty, 0, 0⟩ := by
    simpa using (Except.ok.inj h1).symm
  subst hb₁
  unfold Builder.String
  cases hfil : ls.filter (fun nv => !nv.1.isEmpty && !nv.2.isEmpty) with
  | nil => simp [appendLabels, renderLabels]
  | cons p ps =>
    simp only [hfil]
    rw [appendLabels_false_join _ (by simp)]
    simp [renderLabels, joinComma]

/-- Separator-joined parts of the `BuilderFunc` label loop: a comma
before every part except, when the flag is still clear, the first. -/
def sepJoin (flLabel : Bool) : List (List Nat) → List Nat
  | [] => []
  | p :: ps => (if flLabel then [commaByte] else []) ++ p ++ sepJoin true ps

theorem sepJoin_true_join (ps : List (List Nat)) (p : List Nat) :
    sepJoin true (p :: ps) = [commaByte] ++ joinComma (p :: ps) := by
  induction ps generalizing p with
  | nil => simp [sepJoin, joinComma]
  | cons q rs ih =>
    show [commaByte] ++ p ++ sepJoin true (q :: rs) = _
    rw [ih q]
    simp [joinComma, List.append_assoc]

theorem sepJoin_false_join (ps : List (List Nat)) :
    sepJoin false ps = joinComma ps := by
  cases ps with
  | nil => rfl
  | cons p qs =>
    cases qs with
    | nil => simp [sepJoin, joinComma]
    | cons q rs =>
      show [] ++ p ++ sepJoin true (q :: rs) = _
      rw [sepJoin_true_join rs q]
      simp [joinComma, List.append_assoc]

/-- The `BuilderFunc` label loop renders exactly the callbacks with a
nonempty name and a nonempty value, in input order. -/
theorem BuilderFuncLoop_eq (ls : List LabelCb) :
    ∀ flLabel : Bool,
    BuilderFuncLoop ls flLabel =
      sepJoin flLabel ((ls.filter (fun cb => !cb.name.isEmpty && !cb.value.isEmpty)).map renderCb) := by
  induction ls with
  | nil => intro flLabel; rfl
  | cons cb rest ih =>
    intro flLabel
    by_cases h : cb.name = [] ∨ cb.value = []
    · have hskip : (!cb.name.isEmpty && !cb.value.isEmpty) = false := by
        rcases h with h | h <;> simp [h]
      rw [show BuilderFuncLoop (cb :: rest) flLabel = BuilderFuncLoop rest flLabel from by
        simp only [BuilderFuncLoop, if_pos h]]
      rw [List.filter_cons, hskip]
      simpa using ih flLabel
    · push_neg at h
      obtain ⟨hn, hv⟩ := h
      have hkeep : (!cb.name.isEmpty && !cb.value.isEmpty) = true := by
        simp [List.isEmpty_iff, hn, hv]
      rw [show BuilderFuncLoop (cb :: rest) flLabel =
            (if flLabel then [commaByte] else []) ++ cb.name ++ [equalByte] ++
              (if cb.escapeQuote ∧ cb.value.contains doubleQuotesByte then goQuote cb.value
               else [doubleQuotesByte] ++ cb.value ++ [doubleQuotesByte]) ++
              BuilderFuncLoop rest true from by
        simp only [BuilderFuncLoop]
        rw [if_neg (show ¬(cb.name = [] ∨ cb.value = []) by simp [hn, hv])]]
      rw [List.filter_cons, hkeep]
      rw [ih true]
      simp [sepJoin, renderCb, List.append_assoc]

/-- Running `BuilderFunc` on a valid name and a nonempty label slice: the name,
then braces around the comma-joined accepted callbacks in input
order (the braces appear even when every callback was skipped). -/
theorem BuilderFunc_render (name : List Nat) (ls : List LabelCb)
    (hn : name ≠ []) (hlen : name.length ≤ MetricNameMaxLen)
    (hq : name.contains doubleQuotesByte = false) (hls : ls ≠ []) :
    BuilderFunc name ls = .ok (name ++ [leftBracketByte] ++
      joinComma ((ls.filter (fun cb => !cb.name.isEmpty && !cb.value.isEmpty)).map renderCb) ++
      [rightBracketByte]) := by
  unfold BuilderFunc
  rw [if_neg (by simpa using hn)]
  rw [if_neg (Nat.not_lt.mpr hlen)]
  rw [if_neg (show ¬(name.contains doubleQuotesByte = true) by rw [hq]; simp)]
  rw [if_neg (by simpa using hls)]
  rw [BuilderFuncLoop_eq, sepJoin_false_join]

theorem goQuoteByte_plain (c : Nat) (h32 : 32 ≤ c) (h126 : c ≤ 126)
    (hq : c ≠ doubleQuotesByte) (hb : c ≠ backslashByte) :
    goQuoteByte c = [c] := by
  unfold goQuoteByte
  rw [if_neg (by simp [hq, hb])]
  rw [if_pos ⟨h32, h126⟩]

theorem goQuoteBody_plain (s : List Nat)
    (h : ∀ c ∈ s, 32 ≤ c ∧ c ≤ 126 ∧ c ≠ doubleQuotesByte ∧ c ≠ backslashByte) :
    goQuoteBody s = s := by
  induction s with
  | nil => rfl
  | cons c rest ih =>
    obtain ⟨h32, h126, hq, hb⟩ := h c (by simp)
    show goQuoteByte c ++ goQuoteBody rest = c :: rest
    rw [goQuoteByte_plain c h32 h126 hq hb, ih (fun d hd => h d (by simp [hd]))]
    rfl

theorem vmUnescape_cons_plain (c : Nat) (h : c ≠ backslashByte) (l : List Nat) :
    vmUnescape (c :: l) = c :: vmUnescape l := by
  cases l with
  | nil => rfl
  | cons d rest =>
    show (if c = backslashByte then d :: vmUnescape rest else c :: vmUnescape (d :: rest)) = _
    rw [if_neg h]

theorem vmUnescape_cons_escape (c : Nat) (l : List Nat) :
    vmUnescape (backslashByte :: c :: l) = c :: vmUnescape l := by
  show (if backslashByte = backslashByte then c :: vmUnescape l
        else backslashByte :: vmUnescape (c :: l)) = _
  rw [if_pos rfl]

/-! ## Claims -/

/-- Claim C1, counterexample.  The claim says that when no label was
accepted the rendered result is exactly the bare name with no braces;
but `BuilderFunc` applied to a valid name and an empty label slice
renders the name followed by an empty brace pair, not the bare name. -/
theorem C1_counterexample :
    BuilderFunc [109] [] = .ok [109, leftBracketByte, rightBracketByte] ∧
    [109, leftBracketByte, rightBracketByte] ≠ [109] := by
  refine ⟨rfl, ?_⟩
  decide

/-- Claim C1 as amended.  For the incremental builder, configured with
any label-name and label-value length limits: committing a name and
appending label pairs that are all valid for that configuration
(nonempty and within the configured limits, as the source validators
decide it) in call order renders the name, `{`, the comma-joined
key=value pairs in input order, and `}`, and the bare name with no
braces when no label was appended.  The one-shot `BuilderFunc` renders
the same braced form when it has callbacks, but renders name plus an
empty brace pair — not the bare name — when its label slice is
empty. -/
theorem C1_render_in_order (name : List Nat) (esc : Bool) (a c : Nat)
    (ls : List (List Nat × List Nat)) (b₀ b₁ : Builder)
    (h0 : Builder.Metric Builder.empty name
      [WithLabelNameMaxLen a, WithLabelValueMaxLen c] = .ok b₀)
    (hv : ∀ nv ∈ ls, b₀.isValidLabelName nv.1 = true ∧
      b₀.isValidLabelValue nv.1 nv.2 = true)
    (h1 : runLabels esc b₀ ls = .ok b₁)
    (fname : List Nat) (fls : List LabelCb)
    (hfn : fname ≠ []) (hflen : fname.length ≤ MetricNameMaxLen)
    (hfq : fname.contains doubleQuotesByte = false)
    (hfv : ∀ cb ∈ fls, cb.name ≠ [] ∧ cb.value ≠ []) :
    (b₁.String = if ls = [] then name
       else name ++ [leftBracketByte] ++ joinComma (ls.map (renderLabel esc)) ++
         [rightBracketByte]) ∧
    (fls = [] → BuilderFunc fname fls = .ok (fname ++ [leftBracketByte, rightBracketByte])) ∧
    (fls ≠ [] → BuilderFunc fname fls =
       .ok (fname ++ [leftBracketByte] ++ joinComma (fls.map renderCb) ++ [rightBracketByte])) := by
  refine ⟨?_, ?_, ?_⟩
  · have hb₀ : b₀ = ⟨name, true, false, a, c⟩ := by
      unfold Builder.Metric at h0
      by_cases hn : name.length = 0
      · simp [hn] at h0
      · simp [hn, Builder.empty, WithLabelNameMaxLen, WithLabelValueMaxLen] at h0
        exact h0.symm
    subst hb₀
    rw [runLabels_ok esc ls _ rfl] at h1
    have hacc : acceptedOf ⟨name, true, false, a, c⟩ ls = ls := by
      refine List.filter_eq_self.mpr ?_
      intro nv hnv
      obtain ⟨h1', h2'⟩ := hv nv hnv
      simp [h1', h2']
    rw [hacc] at h1
    have hb₁ : b₁ = ⟨name ++ appendLabels false (ls.map (renderLabel esc)),
        true, !ls.isEmpty, a, c⟩ := by
      simpa using (Except.ok.inj h1).symm
    subst hb₁
    unfold Builder.String
    cases ls with
    | nil => simp [appendLabels]
    | cons p ps =>
      simp only [List.map_cons]
      rw [appendLabels_false_join _ (by simp)]
      simp [List.append_assoc]
  · intro hfls
    subst hfls
    unfold BuilderFunc
    rw [if_neg (by simpa using hfn)]
    rw [if_neg (Nat.not_lt.mpr hflen)]
    rw [if_neg (show ¬(fname.contains doubleQuotesByte = true) by rw [hfq]; simp)]
    rfl
  · intro hfls
    have hfil : fls.filter (fun cb => !cb.name.isEmpty && !cb.value.isEmpty) = fls := by
      refine List.filter_eq_self.mpr ?_
      intro cb hcb
      obtain ⟨h1', h2'⟩ := hfv cb hcb
      simp [h1', h2']
    rw [BuilderFunc_render fname fls hfn hflen hfq hfls, hfil]

/-- Claim C1 witness: the amended rendering law at concrete inputs, on
a builder configured with a label-name limit of 5 and a label-value
limit of 10. -/
theorem C1_render_in_order_witness :
    (Builder.String ⟨[109, 123, 97, 61, 34, 98, 34], true, true, 5, 10⟩ =
       if ([([97], [98])] : List (List Nat × List Nat)) = [] then [109]
       else [109] ++ [leftBracketByte] ++
         joinComma ([([97], [98])].map (renderLabel true)) ++ [rightBracketByte]) ∧
    (([] : List LabelCb) = [] →
       BuilderFunc [110] [] = .ok ([110] ++ [leftBracketByte, rightBracketByte])) ∧
    (([] : List LabelCb) ≠ [] →
       BuilderFunc [110] [] =
         .ok ([110] ++ [leftBracketByte] ++ joinComma (List.map renderCb []) ++
           [rightBracketByte])) :=
  C1_render_in_order [109] true 5 10 [([97], [98])] ⟨[109], true, false, 5, 10⟩
    ⟨[109, 123, 97, 61, 34, 98, 34], true, true, 5, 10⟩ rfl
    (by decide) rfl [110] [] (by decide) (by decide) (by decide) (by decide)

/-- Claim C2, counterexample.  The claim says the name-setting
operation fails fatally whenever the name contains a double-quote
character; but builder.go's `Builder.Metric` performs no double-quote
check (and no length check) and commits such a name successfully. -/
theorem C2_counterexample :
    ([doubleQuotesByte] : List Nat).contains doubleQuotesByte = true ∧
    Builder.Metric Builder.empty [doubleQuotesByte] [] =
      .ok ⟨[doubleQuotesByte], true, false, 0, 0⟩ :=
  ⟨rfl, rfl⟩

/-- Claim C2 as amended.  builder.go's `Builder.Metric` fails fatally
exactly when the name is empty (InvalidName) or a name was already
committed without a reset (AlreadySet); being modelled as an abort
before any mutation, a failure commits nothing.  It does not check the
name's length or its characters; those two checks are fatal only in the
one-shot `BuilderFunc`, which fails exactly on an empty, oversize, or
double-quote-containing name. -/
theorem C2_metric_failure_iff (b : Builder) (name : List Nat) (opts : List BuilderOption)
    (fname : List Nat) (fls : List LabelCb) :
    ((∃ e, Builder.Metric b name opts = .error e) ↔
       (name = [] ∨ b.hasMetricName = true)) ∧
    ((∃ e, BuilderFunc fname fls = .error e) ↔
       (fname = [] ∨ MetricNameMaxLen < fname.length ∨
        fname.contains doubleQuotesByte = true)) := by
  constructor
  · unfold Builder.Metric
    by_cases hn : name.length = 0
    · simp [hn, List.length_eq_zero.mp hn]
    · have hn' : name ≠ [] := by
        intro he
        exact hn (by simp [he])
      by_cases hm : b.hasMetricName
      · simp [hn, hm]
      · simp [hn, hn', hm]
  · unfold BuilderFunc
    by_cases hn : fname.length = 0
    · simp [hn, List.length_eq_zero.mp hn]
    · have hn' : fname ≠ [] := by
        intro he
        exact hn (by simp [he])
      by_cases hlen : MetricNameMaxLen < fname.length
      · simp [hn, hn', hlen]
      · by_cases hq : doubleQuotesByte ∈ fname
        · simp [hn, hn', hlen, hq]
        · by_cases hls : fls.length = 0 <;> simp [hn, hn', hlen, hq, hls]

/-- Claim C3, counterexample.  The claim says every label-appending
operation on a builder with no committed metric name reports a fatal
signal and is never silently ignored; but vimebu.go's `label` (the
shared path of all its label operations) logs and returns the builder
unchanged — no fatal signal — when the name flag is unset. -/
theorem C3_counterexample :
    VBuilder.label ⟨[], false, false⟩ [97] false (some [98]) none none none none =
      .ok ⟨[], false, false⟩ :=
  rfl

/-- Claim C3 as amended.  In the panic-based builder every
label-appending operation that reaches the shared append path — all
string, trusted-string, bool, integer (every width), float, and
non-nil stringer/error variants — panics when no metric name was
committed, leaving no partial output; in the log-and-skip variant the
same structural misuse is skipped silently, returning the builder
unchanged (so no partial output there either). -/
theorem C3_label_before_name (b : Builder) (hb : b.hasMetricName = false)
    (n v fBytes msg : List Nat) (esc bv : Bool) (u : Nat) (i : Int)
    (vb : VBuilder) (hvb : vb.flName = false) (sv : List Nat) :
    b.labelString n v esc = .error .noMetricName ∧
    b.LabelString n v = .error .noMetricName ∧
    b.LabelTrustedString n v = .error .noMetricName ∧
    b.LabelBool n bv = .error .noMetricName ∧
    b.LabelUint64 n u = .error .noMetricName ∧
    b.LabelUint n u = .error .noMetricName ∧
    b.LabelUint8 n u = .error .noMetricName ∧
    b.LabelUint16 n u = .error .noMetricName ∧
    b.LabelUint32 n u = .error .noMetricName ∧
    b.LabelInt64 n i = .error .noMetricName ∧
    b.LabelInt n i = .error .noMetricName ∧
    b.LabelInt8 n i = .error .noMetricName ∧
    b.LabelInt16 n i = .error .noMetricName ∧
    b.LabelInt32 n i = .error .noMetricName ∧
    b.LabelFloat64 n fBytes = .error .noMetricName ∧
    b.LabelFloat32 n fBytes = .error .noMetricName ∧
    b.LabelError (some msg) = .error .noMetricName ∧
    b.LabelNamedError n (some msg) = .error .noMetricName ∧
    b.LabelTrustedError (some msg) = .error .noMetricName ∧
    b.LabelNamedTrustedError n (some msg) = .error .noMetricName ∧
    b.LabelStringer n (some msg) = .error .noMetricName ∧
    b.LabelTrustedStringer n (some msg) = .error .noMetricName ∧
    vb.label n esc (some sv) none none none none = .ok vb := by
  cases bv <;>
    simp [Builder.labelString, Builder.LabelString, Builder.LabelTrustedString,
      Builder.LabelBool, Builder.LabelUint64, Builder.LabelUint, Builder.LabelUint8,
      Builder.LabelUint16, Builder.LabelUint32, Builder.LabelInt64, Builder.LabelInt,
      Builder.LabelInt8, Builder.LabelInt16, Builder.LabelInt32, Builder.LabelFloat64,
      Builder.LabelFloat32, Builder.LabelError, Builder.LabelNamedError,
      Builder.LabelTrustedError, Builder.LabelNamedTrustedError, Builder.LabelStringer,
      Builder.LabelTrustedStringer, VBuilder.label, hb, hvb]

/-- Claim C3 witness: the amended guard law at concrete inputs. -/
theorem C3_label_before_name_witness :
    Builder.empty.hasMetricName = false ∧
    Builder.empty.LabelString [97] [98] = .error .noMetricName ∧
    VBuilder.label VBuilder.empty [97] true (some [99]) none none none none =
      .ok VBuilder.empty := by
  have h := C3_label_before_name Builder.empty rfl [97] [98] [49] [101] true false 5 (-3)
    VBuilder.empty rfl [99]
  exact ⟨rfl, h.2.1, h.2.2.2.2.2.2.2.2.2.2.2.2.2.2.2.2.2.2.2.2.2.2⟩

/-- Claim C4, counterexample.  The claim says the escaping path is
byte-identical to the trusted path for every value with no double
quote; but `strconv.AppendQuote` also escapes backslashes, so the value
consisting of a, backslash, b — which contains no double quote —
renders differently on the two paths of `appendStringValue`. -/
theorem C4_counterexample :
    doubleQuotesByte ∉ [97, backslashByte, 98] ∧
    appendStringValue [] [97, backslashByte, 98] true ≠
      appendStringValue [] [97, backslashByte, 98] false := by
  decide

/-- Claim C4 as amended.  The escaping path and the trusted/verbatim
path of `appendStringValue` (and of builder.go's `LabelString` versus
`LabelTrustedString`) are byte-identical for every value consisting of
printable ASCII bytes that contain no double quote and no backslash;
a backslash or a non-printable byte separates the two paths. -/
theorem C4_escape_plain_identity (dst s : List Nat) (b : Builder) (n : List Nat)
    (h : ∀ c ∈ s, 32 ≤ c ∧ c ≤ 126 ∧ c ≠ doubleQuotesByte ∧ c ≠ backslashByte) :
    appendStringValue dst s true = appendStringValue dst s false ∧
    b.LabelString n s = b.LabelTrustedString n s := by
  have hbody : goQuote s = [doubleQuotesByte] ++ s ++ [doubleQuotesByte] := by
    unfold goQuote
    rw [goQuoteBody_plain s h]
  constructor
  · unfold appendStringValue
    rw [hbody]
    simp [List.append_assoc]
  · unfold Builder.LabelString Builder.LabelTrustedString Builder.labelString
    rw [hbody]
    simp

/-- Claim C4 witness: the amended identity at a concrete quote-free
printable value. -/
theorem C4_escape_plain_identity_witness :
    appendStringValue [61] [97, 98] true = appendStringValue [61] [97, 98] false ∧
    Builder.LabelString ⟨[109], true, false, 0, 0⟩ [110] [97, 98] =
      Builder.LabelTrustedString ⟨[109], true, false, 0, 0⟩ [110] [97, 98] :=
  C4_escape_plain_identity [61] [97, 98] ⟨[109], true, false, 0, 0⟩ [110] (by decide)

/-- Claim C5.  Entries with an empty label name or an empty label value
are absent from the rendered output; every other entry appears; the
surviving entries keep their original relative order (the output equals
the rendering of the filtered sequence, so no reordering, no
deduplication, and a skipped entry has no effect on later ones).  This
holds for the incremental builder and for `BuilderFunc`'s label loop. -/
theorem C5_skip_empty_preserve_order (name : List Nat) (esc : Bool)
    (ls : List (List Nat × List Nat)) (b₀ b₁ : Builder)
    (h0 : Builder.Metric Builder.empty name [] = .ok b₀)
    (h1 : runLabels esc b₀ ls = .ok b₁)
    (fname : List Nat) (fls : List LabelCb)
    (hfn : fname ≠ []) (hflen : fname.length ≤ MetricNameMaxLen)
    (hfq : fname.contains doubleQuotesByte = false) (hfls : fls ≠ []) :
    b₁.String = name ++ renderLabels
        ((ls.filter (fun nv => !nv.1.isEmpty && !nv.2.isEmpty)).map (renderLabel esc)) ∧
    BuilderFunc fname fls = .ok (fname ++ [leftBracketByte] ++
      joinComma ((fls.filter (fun cb => !cb.name.isEmpty && !cb.value.isEmpty)).map renderCb) ++
      [rightBracketByte]) :=
  ⟨build_render name esc ls b₀ b₁ h0 h1, BuilderFunc_render fname fls hfn hflen hfq hfls⟩

/-- Claim C5 witness: a concrete run in which the second label has an
empty name and the third an empty value; only the first appears. -/
theorem C5_skip_empty_preserve_order_witness :
    Builder.String ⟨[109, 123, 97, 61, 34, 98, 34], true, true, 0, 0⟩ =
      [109] ++ renderLabels
        ((([([97], [98]), ([], [99]), ([100], [])] :
            List (List Nat × List Nat)).filter
          (fun nv => !nv.1.isEmpty && !nv.2.isEmpty)).map (renderLabel true)) ∧
    BuilderFunc [110] [⟨[97], [98], false⟩, ⟨[], [99], false⟩] =
      .ok ([110] ++ [leftBracketByte] ++
        joinComma (([⟨[97], [98], false⟩, ⟨[], [99], false⟩].filter
          (fun cb => !cb.name.isEmpty && !cb.value.isEmpty)).map renderCb) ++
        [rightBracketByte]) :=
  C5_skip_empty_preserve_order [109] true [([97], [98]), ([], [99]), ([100], [])]
    ⟨[109], true, false, 0, 0⟩ ⟨[109, 123, 97, 61, 34, 98, 34], true, true, 0, 0⟩
    rfl rfl [110] [⟨[97], [98], false⟩, ⟨[], [99], false⟩]
    (by decide) (by decide) (by decide) (by decide)

/-- Claim C6.  Escaping a value made of printable ASCII bytes — double
quotes included — and then applying the standard unescape convention of
the textual format recovers the value exactly. -/
theorem C6_escape_unescape_roundtrip (s : List Nat)
    (h : ∀ c ∈ s, 32 ≤ c ∧ c ≤ 126) :
    vmUnescape (goQuoteBody s) = s := by
  induction s with
  | nil => rfl
  | cons c rest ih =>
    obtain ⟨h32, h126⟩ := h c (by simp)
    show vmUnescape (goQuoteByte c ++ goQuoteBody rest) = c :: rest
    by_cases hc : c = doubleQuotesByte ∨ c = backslashByte
    · rw [show goQuoteByte c = [backslashByte, c] from by
        unfold goQuoteByte
        rw [if_pos hc]]
      show vmUnescape (backslashByte :: c :: goQuoteBody rest) = _
      rw [vmUnescape_cons_escape, ih (fun d hd => h d (by simp [hd]))]
    · push_neg at hc
      rw [goQuoteByte_plain c h32 h126 hc.1 hc.2]
      show vmUnescape (c :: goQuoteBody rest) = _
      rw [vmUnescape_cons_plain c hc.2, ih (fun d hd => h d (by simp [hd]))]

/-- Claim C6 witness: the round trip at a value containing a double
quote between printable bytes. -/
theorem C6_escape_unescape_roundtrip_witness :
    vmUnescape (goQuoteBody [97, doubleQuotesByte, 98]) = [97, doubleQuotesByte, 98] :=
  C6_escape_unescape_roundtrip [97, doubleQuotesByte, 98] (by decide)

/-- Claim C8.  Rendering a builder that never received a metric name
returns the empty string; the operation is total (no failure value in
its type) and produces no partial content.  This holds for the
panic-based builder and for the log-and-skip variant. -/
theorem C8_render_without_name (b : Builder) (hb : b.hasMetricName = false)
    (vb : VBuilder) (hvb : vb.flName = false) :
    b.String = [] ∧ vb.String = [] := by
  unfold Builder.String VBuilder.String
  simp [hb, hvb]

/-- Claim C8 witness: rendering the zero-value builders. -/
theorem C8_render_without_name_witness :
    Builder.String Builder.empty = [] ∧ VBuilder.String VBuilder.empty = [] :=
  C8_render_without_name Builder.empty rfl VBuilder.empty rfl

/-- Claim C9.  When a label is skipped because its name or value is
invalid (empty or over the configured maximum length), the call
returns the builder exactly as it was — same buffer, same has-name
flag, same has-label flag, same configuration — so later calls behave
as if the skipped call never happened. -/
theorem C9_skip_is_frame (b : Builder) (n v : List Nat) (esc : Bool)
    (hb : b.hasMetricName = true)
    (hinv : b.isValidLabelName n = false ∨ b.isValidLabelValue n v = false) :
    b.labelString n v esc = .ok b ∧
    b.LabelString n v = .ok b ∧
    b.LabelTrustedString n v = .ok b := by
  have hcore : b.labelString n v esc = .ok b ∧ b.labelString n v true = .ok b ∧
      b.labelString n v false = .ok b := by
    rcases hinv with hinv | hinv
    · constructor
      · simp [Builder.labelString, hb, hinv]
      · constructor <;> simp [Builder.labelString, hb, hinv]
    · by_cases hn : b.isValidLabelName n
      · constructor
        · simp [Builder.labelString, hb, hn, hinv]
        · constructor <;> simp [Builder.labelString, hb, hn, hinv]
      · constructor
        · simp [Builder.labelString, hb, hn]
        · constructor <;> simp [Builder.labelString, hb, hn]
  exact ⟨hcore.1, hcore.2.1, hcore.2.2⟩

/-- Claim C9 witness: an empty label name on a builder with a
committed name leaves the builder untouched. -/
theorem C9_skip_is_frame_witness :
    Builder.labelString ⟨[109], true, false, 0, 0⟩ [] [98] true =
      .ok ⟨[109], true, false, 0, 0⟩ ∧
    Builder.LabelString ⟨[109], true, false, 0, 0⟩ [] [98] =
      .ok ⟨[109], true, false, 0, 0⟩ ∧
    Builder.LabelTrustedString ⟨[109], true, false, 0, 0⟩ [] [98] =
      .ok ⟨[109], true, false, 0, 0⟩ :=
  C9_skip_is_frame ⟨[109], true, false, 0, 0⟩ [] [98] true rfl (by decide)

/-- Claim C10.  On an accepted label the label-name bytes are copied
into the buffer verbatim, on the escaping path as well as on the
numeric paths and in the log-and-skip variant, and the label-name
validator inspects nothing but the name's length (so a name containing
double quotes, equals signs, commas or braces passes unmodified into
the rendered output). -/
theorem C10_label_name_verbatim (b : Builder) (n v : List Nat) (esc : Bool) (u : Nat)
    (n₂ : List Nat) (vb : VBuilder)
    (hb : b.hasMetricName = true)
    (hn : b.isValidLabelName n = true)
    (hv : b.isValidLabelValue n v = true)
    (hlen : n.length = n₂.length)
    (hvbn : vb.flName = true)
    (hn1 : n ≠ []) (hn2 : n.length ≤ LabelNameMaxLen)
    (hs1 : v ≠ []) (hs2 : v.length ≤ LabelValueLen) :
    b.labelString n v esc =
      .ok ⟨b.buf ++ (if b.hasLabel then [commaByte] else [leftBracketByte]) ++
        n ++ [equalByte] ++
        (if esc then goQuote v else [doubleQuotesByte] ++ v ++ [doubleQuotesByte]),
        true, true, b.labelNameMaxLen, b.labelValueMaxLen⟩ ∧
    b.LabelUint64 n u =
      .ok ⟨b.buf ++ (if b.hasLabel then [commaByte] else [leftBracketByte]) ++
        n ++ [equalByte] ++ [doubleQuotesByte] ++ natDecimal u ++ [doubleQuotesByte],
        true, true, b.labelNameMaxLen, b.labelValueMaxLen⟩ ∧
    b.isValidLabelName n = b.isValidLabelName n₂ ∧
    vb.label n esc (some v) none none none none =
      .ok ⟨appendStringValue (vb.buf ++ (if vb.flLabel then [commaByte] else [leftBracketByte]) ++
        n ++ [equalByte]) v esc, true, true⟩ := by
  obtain ⟨buf, hmn, hl, a, c⟩ := b
  simp only at hb hn hv
  subst hb
  obtain ⟨vbuf, vfn, vfl⟩ := vb
  simp only at hvbn
  subst hvbn
  refine ⟨?_, ?_, ?_, ?_⟩
  · cases hl <;>
      simp [Builder.labelString, hn, hv, Builder.appendCommaOrLeftBracket, List.append_assoc]
  · cases hl <;>
      simp [Builder.LabelUint64, hn, Builder.appendCommaOrLeftBracket, List.append_assoc]
  · unfold Builder.isValidLabelName
    rw [hlen]
  · have h1 : ¬(n.length = 0) := fun e => hn1 (List.length_eq_zero.mp e)
    have h2 : ¬(LabelNameMaxLen < n.length) := Nat.not_lt.mpr hn2
    have h3 : ¬(v.length = 0) := fun e => hs1 (List.length_eq_zero.mp e)
    have h4 : ¬(LabelValueLen < v.length) := Nat.not_lt.mpr hs2
    simp [VBuilder.label, h1, h2, h3, h4, hn1, hs1, List.append_assoc]

/-- Claim C10 witness: the label name a, double quote, b passes
verbatim into the buffer on the escaping path, the integer path and
the log-and-skip variant, and validates identically to any other
three-byte name. -/
theorem C10_label_name_verbatim_witness :
    Builder.labelString ⟨[109], true, false, 0, 0⟩ [97, 34, 98] [99] true =
      .ok ⟨[109, 123, 97, 34, 98, 61, 34, 99, 34], true, true, 0, 0⟩ ∧
    Builder.LabelUint64 ⟨[109], true, false, 0, 0⟩ [97, 34, 98] 7 =
      .ok ⟨[109, 123, 97, 34, 98, 61, 34, 55, 34], true, true, 0, 0⟩ ∧
    Builder.isValidLabelName ⟨[109], true, false, 0, 0⟩ [97, 34, 98] =
      Builder.isValidLabelName ⟨[109], true, false, 0, 0⟩ [120, 121, 122] ∧
    VBuilder.label ⟨[109], true, false⟩ [97, 34, 98] true (some [99]) none none none none =
      .ok ⟨[109, 123, 97, 34, 98, 61, 34, 99, 34], true, true⟩ := by
  have h := C10_label_name_verbatim ⟨[109], true, false, 0, 0⟩ [97, 34, 98] [99] true 7
    [120, 121, 122] ⟨[109], true, false⟩ rfl rfl rfl rfl rfl
    (by decide) (by decide) (by decide) (by decide)
  simpa [goQuote, goQuoteBody, goQuoteByte, natDecimal, natDecimalAux,
    appendStringValue] using h
